import Mathlib

/-!
Shallow embedding of the photo-storage and cloud-sync logic of the
NewCountDown web application (files `src/lib/storage.ts` and
`src/lib/cloudStorage.ts`), together with proofs about the spec claims.

Modelling conventions:
- JS `Date` values are modelled by their millisecond timestamps (`Int`),
  which is what the code compares (`getTime()`).
- `ArrayBuffer` binary data is modelled as `List Nat` (the byte sequence).
- Optional (possibly-`undefined`) fields are modelled as `Option`.
- The IndexedDB key-value store is modelled as an association list from
  keys to photo records; the literal `photo:` key namespace of the code
  is invisible at this level, so keys are the photo ids themselves.
- External platform primitives (`btoa`/`atob`, `Date.toISOString` /
  `new Date(string)`) are parameters of the functions that use them.
- Asynchronous code is sequential (`await` chains); it is embedded as
  ordinary sequential functions, with `Except` for thrown errors.
-/

/-- The `Photo` record of `storage.ts`. -/
structure Photo where
  id : String
  data : List Nat
  createdAt : Int
  takenAt : Option Int := none
  caption : Option String := none
  isFavorite : Bool := false
  order : Int := 0
  cloudId : Option String := none
  cloudUrl : Option String := none
  lastSynced : Option Int := none
  isUploading : Option Bool := none
  uploadProgress : Option Int := none
deriving Repr, DecidableEq

/-- A `Partial(Photo)` update object: `some v` means the key is present in
the partial object with value `v`, `none` means the key is absent.  The
`id` key is never passed by any caller in the repository and is omitted. -/
structure PhotoUpdates where
  data : Option (List Nat) := none
  createdAt : Option Int := none
  takenAt : Option (Option Int) := none
  caption : Option (Option String) := none
  isFavorite : Option Bool := none
  order : Option Int := none
  cloudId : Option (Option String) := none
  cloudUrl : Option (Option String) := none
  lastSynced : Option (Option Int) := none
  isUploading : Option (Option Bool) := none
  uploadProgress : Option (Option Int) := none
deriving Repr, DecidableEq

/-- The JS object spread `\x7b ...photo, ...updates \x7d`: present keys of the
partial update object override the fields of the photo. -/
def applyUpdates (p : Photo) (u : PhotoUpdates) : Photo :=
  { id := p.id
    data := u.data.getD p.data
    createdAt := u.createdAt.getD p.createdAt
    takenAt := u.takenAt.getD p.takenAt
    caption := u.caption.getD p.caption
    isFavorite := u.isFavorite.getD p.isFavorite
    order := u.order.getD p.order
    cloudId := u.cloudId.getD p.cloudId
    cloudUrl := u.cloudUrl.getD p.cloudUrl
    lastSynced := u.lastSynced.getD p.lastSynced
    isUploading := u.isUploading.getD p.isUploading
    uploadProgress := u.uploadProgress.getD p.uploadProgress }

/-- The local IndexedDB state used by `PhotoStorage`: the photo records
(an association list keyed by photo id, standing for the `photo:` keyed
entries) and the order list stored under `photo_order`. -/
structure LocalStore where
  photos : List (String × Photo)
  order : List String
deriving Repr, DecidableEq

/-- The empty local store. -/
def emptyStore : LocalStore := { photos := [], order := [] }

/-- The `idb-keyval` `set` operation: overwrite the record at an existing key, or add a
new entry. -/
def setKey (l : List (String × Photo)) (k : String) (v : Photo) :
    List (String × Photo) :=
  if l.any (fun e => e.1 == k) then
    l.map (fun e => if e.1 == k then (k, v) else e)
  else l ++ [(k, v)]

/-- Embeds `PhotoStorage.getPhoto`: `idb-keyval` `get` of key `photo:` + id,
`null` when absent. -/
def getPhoto (s : LocalStore) (id : String) : Option Photo :=
  (s.photos.find? (fun e => e.1 == id)).map (fun e => e.2)

/-- Embeds `PhotoStorage.getAllPhotos`: every record stored under a `photo:` key. -/
def getAllPhotos (s : LocalStore) : List Photo :=
  s.photos.map (fun e => e.2)

/-- Embeds `PhotoStorage.savePhoto`: assign the freshly generated id (the
`photo_<time>_<random>` string, here a parameter), persist the record,
append the id to the order list. -/
def savePhoto (s : LocalStore) (fresh : String) (photo : Photo) :
    LocalStore × String :=
  let photoWithId : Photo := { photo with id := fresh }
  ({ photos := setKey s.photos fresh photoWithId
     order := s.order ++ [fresh] }, fresh)

/-- Embeds `PhotoStorage.savePhotoWithId`: persist under the caller-supplied id;
append to the order list only when the id is not already present. -/
def savePhotoWithId (s : LocalStore) (photo : Photo) : LocalStore :=
  let s1 : LocalStore := { s with photos := setKey s.photos photo.id photo }
  if s1.order.contains photo.id then s1
  else { s1 with order := s1.order ++ [photo.id] }

/-- Embeds `PhotoStorage.deletePhoto`.  When the photo is absent the function
warns and returns.  When the photo carries a `cloudId` the code attempts
the remote deletion and catches any failure (`remoteDeleteOk` records the
remote outcome; the local effect does not depend on it).  The local
record and the order entry are then removed. -/
def deletePhoto (remoteDeleteOk : Bool) (s : LocalStore) (id : String) :
    LocalStore :=
  match getPhoto s id with
  | none => s
  | some _photo =>
    { photos := s.photos.filter (fun e => e.1 != id)
      order := s.order.filter (fun pid => pid != id) }

/-- Embeds `PhotoStorage.updatePhoto`.  If the photo is absent the function
returns immediately.  Otherwise the merged record is stored; when the
stored photo carries a `cloudId` the code additionally attempts a remote
update whose failure is caught.  The returned `Bool` records whether a
remote call was attempted. -/
def updatePhoto (s : LocalStore) (id : String) (u : PhotoUpdates) :
    LocalStore × Bool :=
  match getPhoto s id with
  | none => (s, false)
  | some photo =>
    let updated := applyUpdates photo u
    ({ s with photos := setKey s.photos id updated }, photo.cloudId.isSome)

/-- Embeds `PhotoStorage.reorderPhotos`: replace the order list wholesale, with
no validation. -/
def reorderPhotos (s : LocalStore) (photoIds : List String) : LocalStore :=
  { s with order := photoIds }

/-- A JS `Map` built from a list of entries (`new Map(list)`): a later
entry for the same key overwrites an earlier one, so `get` returns the
last matching entry. -/
def jsMapGet {β : Type} (l : List (String × β)) (k : String) : Option β :=
  match l with
  | [] => none
  | e :: rest =>
    match jsMapGet rest k with
    | some v => some v
    | none => if e.1 == k then some e.2 else none

/-- JS `Map.has`. -/
def jsMapHas {β : Type} (l : List (String × β)) (k : String) : Bool :=
  (jsMapGet l k).isSome

/-- Embeds `PhotoStorage.getPhotosInOrder`: photos following the order list
(ids missing from the store are dropped by the `filter`), then every
stored photo whose id is absent from the order list. -/
def getPhotosInOrder (s : LocalStore) : List Photo :=
  let photos := getAllPhotos s
  let photoMap := photos.map (fun p => (p.id, p))
  let orderedPhotos := s.order.filterMap (fun id => jsMapGet photoMap id)
  let unorderedPhotos := photos.filter (fun p => !(s.order.contains p.id))
  orderedPhotos ++ unorderedPhotos

/-- A Firestore photo document as written and read by
`CloudStorageService` (collection `photos`, keyed by `cloudId`).  The
`takenAt` and `caption` fields are `Option` because a document may or may
not contain those keys. -/
structure CloudRecord where
  id : String
  cloudId : String
  cloudUrl : String
  createdAt : Int
  takenAt : Option Int := none
  caption : Option String := none
  isFavorite : Bool := false
  order : Int := 0
  lastSynced : Int := 0
deriving Repr, DecidableEq

/-- The remote environment a sync pass runs against: the Firestore
document collection plus outcome oracles for each kind of remote call
(`none` / `false` meaning the corresponding call throws). -/
structure RemoteEnv where
  docs : List (String × CloudRecord)
  listOk : Bool := true
  cleanupListOk : Bool := true
  uploadOutcome : Photo → Option (String × String) := fun _ => none
  blobFetch : String → Option (List Nat) := fun _ => none
  probeOk : String → Bool := fun _ => true
  deleteDocOk : String → Bool := fun _ => true
  deleteBlobOk : String → Bool := fun _ => true
  now : Int := 0

/-- The `firestoreData` object built inside `CloudStorageService.uploadPhoto`:
`takenAt` is included only when present on the photo; `caption` is always
written, with `photo.caption or-else empty-string`; `isFavorite` and
`order` use the analogous JS `or-else` defaults, which are identities at
these types. -/
def buildFirestoreDoc (photo : Photo) (cloudId cloudUrl : String)
    (now : Int) : CloudRecord :=
  { id := photo.id
    cloudId := cloudId
    cloudUrl := cloudUrl
    createdAt := photo.createdAt
    caption := some (photo.caption.getD "")
    isFavorite := photo.isFavorite
    order := photo.order
    lastSynced := now
    takenAt := photo.takenAt }

/-- Embeds `CloudStorageService.uploadPhoto`: on success returns the cloud-linked
photo (`...photo` with `cloudId`, `cloudUrl`, `lastSynced` set) and the
Firestore document written by `setDoc`.  `env.uploadOutcome` supplies the
generated `cloudId` and the download URL, or `none` when any of the
storage/Firestore calls throws. -/
def uploadPhoto (env : RemoteEnv) (photo : Photo) :
    Except String (Photo × CloudRecord) :=
  match env.uploadOutcome photo with
  | none => Except.error "upload failed"
  | some (cid, curl) =>
    Except.ok
      ({ photo with cloudId := some cid, cloudUrl := some curl,
                    lastSynced := some env.now },
       buildFirestoreDoc photo cid curl env.now)

/-- Embeds `CloudStorageService.downloadPhoto`: read the document by `cloudId`
(NotFound error when absent), re-derive a fresh download URL and fetch
the blob (both failure points folded into `env.blobFetch`), and
reconstruct a `Photo` from the document fields.  The returned object
carries no `cloudId` / `cloudUrl` / `lastSynced` keys. -/
def downloadPhoto (env : RemoteEnv) (cloudId : String) :
    Except String Photo :=
  match (env.docs.find? (fun e => e.1 == cloudId)).map (fun e => e.2) with
  | none => Except.error "Photo not found in cloud"
  | some data =>
    match env.blobFetch cloudId with
    | none => Except.error "Failed to download photo"
    | some bytes =>
      Except.ok
        { id := data.id
          data := bytes
          createdAt := data.createdAt
          takenAt := data.takenAt
          caption := data.caption
          isFavorite := data.isFavorite
          order := data.order }

/-- Comparison used by the Firestore query
`orderBy(createdAt, desc)`: descending creation time. -/
def createdDesc (a b : CloudRecord) : Prop := b.createdAt ≤ a.createdAt

instance : DecidableRel createdDesc :=
  fun a b => inferInstanceAs (Decidable (b.createdAt ≤ a.createdAt))

/-- The record list produced by listing the collection ordered by
`createdAt` descending. -/
def remoteListing (docs : List (String × CloudRecord)) : List CloudRecord :=
  List.insertionSort createdDesc (docs.map (fun e => e.2))

/-- Embeds `CloudStorageService.getAllPhotos`: the full-collection query, which
either throws (network) or returns every document, descending by
creation time. -/
def getAllCloudPhotos (env : RemoteEnv) : Except String (List CloudRecord) :=
  if env.listOk then Except.ok (remoteListing env.docs)
  else Except.error "network failure listing photos"

/-- The first loop of `CloudStorageService.syncPhotos`: upload every local
photo whose id is absent from the cloud map; an upload failure is not
caught and aborts the whole pass. -/
def uploadLoop (env : RemoteEnv) (cloudEntries : List (String × CloudRecord)) :
    List Photo → Except String (List Photo)
  | [] => Except.ok []
  | p :: rest =>
    if jsMapHas cloudEntries p.id then uploadLoop env cloudEntries rest
    else
      match uploadPhoto env p with
      | Except.error e => Except.error e
      | Except.ok (cp, _doc) =>
        match uploadLoop env cloudEntries rest with
        | Except.error e => Except.error e
        | Except.ok ups => Except.ok (cp :: ups)

/-- The second loop of `CloudStorageService.syncPhotos`: download every
cloud record whose embedded local id is absent from the local map; a
per-item failure is caught, logged and skipped. -/
def downloadLoop (env : RemoteEnv) (localEntries : List (String × Photo)) :
    List CloudRecord → List Photo
  | [] => []
  | c :: rest =>
    if jsMapHas localEntries c.id then downloadLoop env localEntries rest
    else
      match downloadPhoto env c.cloudId with
      | Except.error _ => downloadLoop env localEntries rest
      | Except.ok p => p :: downloadLoop env localEntries rest

/-- The third loop of `CloudStorageService.syncPhotos`: report every id
present on both sides whose `createdAt` timestamps differ. -/
def conflictLoop (cloudEntries : List (String × CloudRecord)) :
    List Photo → List (Photo × CloudRecord)
  | [] => []
  | p :: rest =>
    match jsMapGet cloudEntries p.id with
    | some c =>
      if p.createdAt ≠ c.createdAt then (p, c) :: conflictLoop cloudEntries rest
      else conflictLoop cloudEntries rest
    | none => conflictLoop cloudEntries rest

/-- The result record of `CloudStorageService.syncPhotos`. -/
structure SyncResult where
  uploaded : List Photo
  downloaded : List Photo
  conflicts : List (Photo × CloudRecord)
deriving Repr, DecidableEq

/-- Embeds `CloudStorageService.syncPhotos`: fetch the full remote listing (a
failure propagates), build the local and cloud identity maps keyed by
local id, then run the upload, download and conflict loops.  The outer
try/catch rethrows, so it is the identity. -/
def syncPhotos (env : RemoteEnv) (localPhotos : List Photo) :
    Except String SyncResult :=
  match getAllCloudPhotos env with
  | Except.error e => Except.error e
  | Except.ok cloudPhotos =>
    let localEntries := localPhotos.map (fun p => (p.id, p))
    let cloudEntries := cloudPhotos.map (fun c => (c.id, c))
    match uploadLoop env cloudEntries localPhotos with
    | Except.error e => Except.error e
    | Except.ok uploaded =>
      Except.ok
        { uploaded := uploaded
          downloaded := downloadLoop env localEntries cloudPhotos
          conflicts := conflictLoop cloudEntries localPhotos }

/-- Embeds `CloudStorageService.deletePhoto` as invoked during cleanup: delete
the Firestore document, then the Storage blob.  The document disappears
whenever `deleteDoc` succeeds, even when the subsequent blob deletion
throws; the returned `Bool` is whether the whole call succeeded. -/
def deleteCloudPhoto (env : RemoteEnv) (docs : List (String × CloudRecord))
    (cloudId : String) : Bool × List (String × CloudRecord) :=
  if env.deleteDocOk cloudId then
    let docs2 := docs.filter (fun e => e.1 != cloudId)
    (env.deleteBlobOk cloudId, docs2)
  else (false, docs)

/-- The loop of `CloudStorageService.cleanupInvalidPhotos`: probe the
blob of each listed record; when the probe fails, attempt deletion (its own
failure caught) and count the successful deletions. -/
def cleanupLoop (env : RemoteEnv) :
    List CloudRecord → List (String × CloudRecord) →
    Nat × List (String × CloudRecord)
  | [], docs => (0, docs)
  | c :: rest, docs =>
    if env.probeOk c.cloudId then cleanupLoop env rest docs
    else
      let step := deleteCloudPhoto env docs c.cloudId
      let tail := cleanupLoop env rest step.2
      (if step.1 then tail.1 + 1 else tail.1, tail.2)

/-- Embeds `CloudStorageService.cleanupInvalidPhotos`: list the collection and
run the cleanup loop.  The outer catch swallows every error (in
particular a listing failure) and returns 0; it never throws. -/
def cleanupInvalidPhotos (env : RemoteEnv) :
    Nat × List (String × CloudRecord) :=
  if env.cleanupListOk then
    cleanupLoop env (remoteListing env.docs) env.docs
  else (0, env.docs)

/-- The first side-effect loop of `PhotoStorage.syncWithCloud`: for every
uploaded photo, merge the new cloud-linkage fields into the local record. -/
def recordUploadUpdates (s : LocalStore) (ups : List Photo) : LocalStore :=
  ups.foldl
    (fun st cp =>
      (updatePhoto st cp.id
        { cloudId := some cp.cloudId
          cloudUrl := some cp.cloudUrl
          lastSynced := some cp.lastSynced }).1)
    s

/-- The second side-effect loop of `PhotoStorage.syncWithCloud`: persist
every downloaded photo under its original id via `savePhotoWithId`. -/
def materializeDownloads (s : LocalStore) (downs : List Photo) : LocalStore :=
  downs.foldl (fun st p => savePhotoWithId st p) s

/-- Embeds `PhotoStorage.syncWithCloud`: clean up invalid remote photos (the
cleanup never throws; its deletions update the document collection seen
by the rest of the pass), fetch all local photos, run
`CloudStorageService.syncPhotos` (whose failure propagates — the outer
try/catch rethrows), then apply the local side effects.  Returns the sync
result, the cleaned count and the final local store. -/
def syncWithCloud (env : RemoteEnv) (s : LocalStore) :
    Except String (SyncResult × Nat × LocalStore) :=
  let cleanup := cleanupInvalidPhotos env
  let env2 : RemoteEnv := { env with docs := cleanup.2 }
  match syncPhotos env2 (getAllPhotos s) with
  | Except.error e => Except.error e
  | Except.ok res =>
    let s1 := recordUploadUpdates s res.uploaded
    let s2 := materializeDownloads s1 res.downloaded
    Except.ok (res, cleanup.1, s2)

/-- The theme union type of `AppSettings`. -/
inductive Theme where
  | light
  | dark
  | system
deriving Repr, DecidableEq

/-- The `CountdownSettings` record of `storage.ts`. -/
structure CountdownSettings where
  targetDate : String
  timezone : String
deriving Repr, DecidableEq

/-- The `AppSettings` record of `storage.ts`. -/
structure AppSettings where
  theme : Theme
  countdown : CountdownSettings
deriving Repr, DecidableEq

/-- The whole persisted application state touched by export/import: the
photo store (IndexedDB) and the settings record (localStorage). -/
structure AppState where
  store : LocalStore
  settings : AppSettings
deriving Repr, DecidableEq

/-- The `manifest.json` record of an export archive. -/
structure Manifest where
  version : String
  exportedAt : String
deriving Repr, DecidableEq

/-- One per-photo JSON file of an export archive (`photos/<id>.json`):
`data` is the base64 encoding, dates are ISO strings, and the optional
`takenAt` / `caption` keys are omitted when the photo lacks them. -/
structure ExportedPhoto where
  id : String
  data : String
  createdAt : String
  takenAt : Option String := none
  caption : Option String := none
  isFavorite : Bool := false
  order : Int := 0
deriving Repr, DecidableEq

/-- An export ZIP archive: optional `manifest.json`, optional
`settings.json`, and the JSON files of the `photos/` folder in insertion
order. -/
structure Archive where
  manifest : Option Manifest
  settingsFile : Option AppSettings
  photoFiles : List ExportedPhoto
deriving Repr, DecidableEq

/-- Embeds `DataExporter.exportData`: serialize settings and every stored photo
into an archive with a `1.0.0` manifest.  `toISO` stands for
`Date.toISOString` and `b64encode` for the `arrayBufferToBase64` helper
(byte string + `btoa`), both platform primitives. -/
def exportData (toISO : Int → String) (b64encode : List Nat → String)
    (st : AppState) (exportedAt : String) : Archive :=
  { manifest := some { version := "1.0.0", exportedAt := exportedAt }
    settingsFile := some st.settings
    photoFiles :=
      (getAllPhotos st.store).map (fun p =>
        { id := p.id
          data := b64encode p.data
          createdAt := toISO p.createdAt
          takenAt := p.takenAt.map toISO
          caption := p.caption
          isFavorite := p.isFavorite
          order := p.order }) }

/-- The photo value reconstructed by `DataExporter.importData` from one
photo JSON file.  The `photoData.takenAt ? new Date(...) : undefined`
conditional is JS truthiness, so an empty string also yields no date.
`parseDate` stands for `new Date(string)` and `b64decode` for
`base64ToArrayBuffer` (`atob` + byte extraction). -/
def importedPhoto (parseDate : String → Int) (b64decode : String → List Nat)
    (pd : ExportedPhoto) : Photo :=
  { id := pd.id
    data := b64decode pd.data
    createdAt := parseDate pd.createdAt
    takenAt :=
      match pd.takenAt with
      | some sx => if sx == "" then none else some (parseDate sx)
      | none => none
    caption := pd.caption
    isFavorite := pd.isFavorite
    order := pd.order }

/-- The full archive path of one photo JSON file, as written by export:
`photosFolder.file(id + .json)` creates the entry `photos/<id>.json`. -/
def photoFilePath (pd : ExportedPhoto) : String :=
  "photos/" ++ pd.id ++ ".json"

/-- The key set of `photosFolder.files`.  In JSZip, `zip.folder(photos)`
returns a view that shares the files dictionary of the WHOLE archive, so
`Object.keys(photosFolder.files)` yields the full paths of every entry:
`manifest.json` and `settings.json` when present, the `photos/` directory
entry, and each `photos/<id>.json` photo file. -/
def archivePaths (ar : Archive) : List String :=
  (match ar.manifest with
   | some _ => ["manifest.json"]
   | none => []) ++
  (match ar.settingsFile with
   | some _ => ["settings.json"]
   | none => []) ++
  ["photos/"] ++ ar.photoFiles.map photoFilePath

/-- The `name.endsWith(.json)` test of the import filter, written over
the character lists of the two strings so that it reduces in the kernel. -/
def strEndsWith (s suff : String) : Bool :=
  suff.data.isSuffixOf s.data

/-- `photosFolder.file(name)`: a lookup on the folder view resolves
`name` RELATIVE to the `photos/` root, i.e. it searches the archive for
the full path `photos/` + name, returning the photo entry stored there or
null.  Non-photo payloads cannot live under such a path in an exported
archive, so only photo entries are resolvable here. -/
def photosFolderFile (ar : Archive) (name : String) : Option ExportedPhoto :=
  ar.photoFiles.find? (fun pd => photoFilePath pd == "photos/" ++ name)

/-- Embeds `DataExporter.importData`: reject when `manifest.json` is absent or
its version is not the supported `1.0.0` — both before any write, then
store the settings file (if present).  The photo loop iterates
`Object.keys(photosFolder.files)` — which are full archive paths — keeps
the `.json` ones, and calls `photosFolder.file(fileName)` on each; that
call resolves `photos/` + full path, so for an exported archive every
lookup misses (`photos/manifest.json`, `photos/settings.json`,
`photos/photos/<id>.json`) and the guarded write is skipped.  The
returned pair is the thrown-or-completed outcome together with the final
state. -/
def importData (parseDate : String → Int) (b64decode : String → List Nat)
    (st : AppState) (ar : Archive) : Except String Unit × AppState :=
  match ar.manifest with
  | none => (Except.error "Invalid export file: missing manifest", st)
  | some m =>
    if m.version ≠ "1.0.0" then
      (Except.error ("Unsupported export version: " ++ m.version), st)
    else
      let st1 : AppState :=
        match ar.settingsFile with
        | some sets => { st with settings := sets }
        | none => st
      let jsonNames :=
        (archivePaths ar).filter (fun n => strEndsWith n ".json")
      let store2 :=
        jsonNames.foldl
          (fun sto name =>
            match photosFolderFile ar name with
            | some pd =>
              { sto with
                photos := setKey sto.photos pd.id
                  (importedPhoto parseDate b64decode pd) }
            | none => sto)
          st1.store
      (Except.ok (), { st1 with store := store2 })

/-- One user-level operation on the local photo store, as named by the
permutation property of the spec: `save` (with its generated id), `delete`
(with the remote outcome), and `reorder`. -/
inductive StoreOp where
  | save (fresh : String) (photo : Photo)
  | del (id : String) (remoteOk : Bool)
  | reorder (ids : List String)
deriving Repr, DecidableEq

/-- Apply one store operation. -/
def applyOp (s : LocalStore) : StoreOp → LocalStore
  | StoreOp.save fresh photo => (savePhoto s fresh photo).1
  | StoreOp.del id ok => deletePhoto ok s id
  | StoreOp.reorder ids => reorderPhotos s ids

/-- Apply a sequence of store operations. -/
def applyOps (s : LocalStore) (ops : List StoreOp) : LocalStore :=
  ops.foldl applyOp s

/-- Well-formedness of one operation against the current state: a `save`
uses a genuinely fresh generated id (matching the time-and-randomness id
generation of the code), and a `reorder` argument has no duplicate ids (the code
trusts its callers here). -/
def OpWf (s : LocalStore) : StoreOp → Prop
  | StoreOp.save fresh _ =>
      (∀ e ∈ s.photos, e.1 ≠ fresh) ∧ fresh ∉ s.order
  | StoreOp.del _ _ => True
  | StoreOp.reorder ids => ids.Nodup

/-- Well-formedness of an operation sequence along its execution. -/
def OpsWf : LocalStore → List StoreOp → Prop
  | _, [] => True
  | s, op :: rest => OpWf s op ∧ OpsWf (applyOp s op) rest

/-- The store invariant maintained by the API: record keys are distinct,
the `id` field of each stored photo equals its key, and the order list has no
duplicates. -/
def StoreWf (s : LocalStore) : Prop :=
  (s.photos.map (fun e => e.1)).Nodup ∧
  (∀ e ∈ s.photos, e.2.id = e.1) ∧
  s.order.Nodup

/-- Well-formedness of the remote document collection: document keys are
distinct and the `cloudId` field of each document equals its key — both hold
by construction in Firestore, where the key is the generated `cloudId`. -/
def DocsWf (docs : List (String × CloudRecord)) : Prop :=
  (docs.map (fun e => e.1)).Nodup ∧ ∀ e ∈ docs, e.2.cloudId = e.1

theorem jsMapGet_mem {β : Type} {l : List (String × β)} {k : String} {v : β}
    (h : jsMapGet l k = some v) : (k, v) ∈ l := by
  induction l with
  | nil => simp [jsMapGet] at h
  | cons e rest ih =>
    rw [jsMapGet] at h
    cases hr : jsMapGet rest k with
    | some w =>
      rw [hr] at h
      exact List.mem_cons_of_mem _ (ih (hr.trans h))
    | none =>
      rw [hr] at h
      by_cases hk : (e.1 == k) = true
      · rw [if_pos hk] at h
        have hv : e.2 = v := by cases h; rfl
        have hek : e.1 = k := by simpa using hk
        have : e = (k, v) := Prod.ext hek hv
        rw [← this]
        exact List.mem_cons_self _ _
      · rw [if_neg hk] at h; cases h

theorem jsMapGet_none_of_not_mem {β : Type} {l : List (String × β)} {k : String}
    (h : k ∉ l.map (fun e => e.1)) : jsMapGet l k = none := by
  induction l with
  | nil => rfl
  | cons e rest ih =>
    rw [jsMapGet, ih (fun hm => h (List.mem_cons_of_mem _ hm))]
    have hne : ¬ ((e.1 == k) = true) := by
      simp only [beq_iff_eq]
      intro hek
      exact h (by rw [← hek]; exact List.mem_map_of_mem _ (List.mem_cons_self _ _))
    rw [if_neg hne]

theorem jsMapGet_ne_none_of_mem {β : Type} {l : List (String × β)}
    {k : String} {v : β} (hm : (k, v) ∈ l) : jsMapGet l k ≠ none := by
  induction l with
  | nil => cases hm
  | cons e rest ih =>
    rw [jsMapGet]
    cases hr : jsMapGet rest k with
    | some w => simp
    | none =>
      rcases List.mem_cons.mp hm with he | hrest
      · rw [if_pos (by rw [← he]; simp)]
        simp
      · exact absurd hr (ih hrest)

theorem jsMapGet_of_mem_nodup {β : Type} {l : List (String × β)} {k : String}
    {v : β} (hnd : (l.map (fun e => e.1)).Nodup) (hm : (k, v) ∈ l) :
    jsMapGet l k = some v := by
  induction l with
  | nil => cases hm
  | cons e rest ih =>
    rw [List.map_cons, List.nodup_cons] at hnd
    rcases List.mem_cons.mp hm with he | hr
    · have hk : k = e.1 := by rw [← he]
      have hnone : jsMapGet rest k = none := by
        apply jsMapGet_none_of_not_mem
        rw [hk]; exact hnd.1
      rw [jsMapGet, hnone, if_pos (by simp [hk])]
      rw [← he]
    · rw [jsMapGet, ih hnd.2 hr]

theorem jsMapHas_false_iff {β : Type} {l : List (String × β)} {k : String} :
    jsMapHas l k = false ↔ k ∉ l.map (fun e => e.1) := by
  constructor
  · intro h hm
    rcases List.mem_map.mp hm with ⟨e, he, hk⟩
    have hmem : (k, e.2) ∈ l := by
      have : e = (k, e.2) := Prod.ext hk rfl
      rw [← this]; exact he
    have hne := jsMapGet_ne_none_of_mem hmem
    rw [jsMapHas] at h
    cases hg : jsMapGet l k with
    | some w => rw [hg] at h; cases h
    | none => exact hne hg
  · intro h
    rw [jsMapHas, jsMapGet_none_of_not_mem h]
    rfl

theorem find_key_of_mem_nodup {l : List (String × CloudRecord)}
    {e : String × CloudRecord} (hnd : (l.map (fun x => x.1)).Nodup)
    (he : e ∈ l) : l.find? (fun x => x.1 == e.1) = some e := by
  induction l with
  | nil => cases he
  | cons d rest ih =>
    rw [List.map_cons, List.nodup_cons] at hnd
    rcases List.mem_cons.mp he with hd | hr
    · rw [← hd, List.find?_cons]
      simp
    · have hne : ¬ ((d.1 == e.1) = true) := by
        simp only [beq_iff_eq]
        intro hde
        exact hnd.1 (by rw [hde]; exact List.mem_map_of_mem _ hr)
      have hfalse : (d.1 == e.1) = false := by
        cases hb : (d.1 == e.1) with
        | true => exact absurd hb hne
        | false => rfl
      rw [List.find?_cons, hfalse]
      exact ih hnd.2 hr

/-- C6: deleting a locally stored photo that carries a cloudId removes
the local record and its order entry for every remote-deletion outcome;
the remote failure never prevents the local deletion. -/
theorem deletePhoto_local_always (remoteOk : Bool) (s : LocalStore)
    (id : String) (photo : Photo) (c : String)
    (h : getPhoto s id = some photo) (hc : photo.cloudId = some c) :
    getPhoto (deletePhoto remoteOk s id) id = none ∧
    id ∉ (deletePhoto remoteOk s id).order := by
  unfold deletePhoto
  rw [h]
  constructor
  · unfold getPhoto
    have hnone :
        List.find? (fun e => e.1 == id)
          (s.photos.filter (fun e => e.1 != id)) = none := by
      rw [List.find?_eq_none]
      intro x hx
      have := (List.mem_filter.mp hx).2
      simp only [bne_iff_ne, ne_eq, decide_not] at this
      simpa using this
    rw [hnone]
    rfl
  · intro hmem
    have := (List.mem_filter.mp hmem).2
    simp at this

/-- C6 witness at a concrete store: one photo with a cloudId, both remote
outcomes. -/
theorem deletePhoto_local_always_witness :
    (getPhoto
        (deletePhoto false
          { photos := [("a", { id := "a", data := [1], createdAt := 0,
                               cloudId := some "c1" })],
            order := ["a"] } "a") "a" = none ∧
      "a" ∉ (deletePhoto false
          { photos := [("a", { id := "a", data := [1], createdAt := 0,
                               cloudId := some "c1" })],
            order := ["a"] } "a").order) :=
  deletePhoto_local_always false
    { photos := [("a", { id := "a", data := [1], createdAt := 0,
                         cloudId := some "c1" })],
      order := ["a"] } "a"
    { id := "a", data := [1], createdAt := 0, cloudId := some "c1" } "c1"
    (by decide) (by decide)

/-- C7: savePhotoWithId is idempotent with respect to the order list —
a second call with the same photo leaves the order list as after one
call. -/
theorem savePhotoWithId_idem_order (s : LocalStore) (p : Photo) :
    (savePhotoWithId (savePhotoWithId s p) p).order =
      (savePhotoWithId s p).order := by
  by_cases h : p.id ∈ s.order <;>
    simp [savePhotoWithId, h]

/-- C10: updating a photo id with no stored record returns without error,
stores nothing, makes no remote call, and leaves the store (records and
order list) unchanged. -/
theorem updatePhoto_missing_noop (s : LocalStore) (id : String)
    (u : PhotoUpdates) (h : getPhoto s id = none) :
    updatePhoto s id u = (s, false) := by
  unfold updatePhoto
  rw [h]

/-- C10 witness: update of an absent id on a concrete nonempty store. -/
theorem updatePhoto_missing_noop_witness :
    updatePhoto
      { photos := [("a", { id := "a", data := [], createdAt := 0 })],
        order := ["a"] } "zzz" { caption := some (some "hi") } =
      ({ photos := [("a", { id := "a", data := [], createdAt := 0 })],
         order := ["a"] }, false) :=
  updatePhoto_missing_noop _ "zzz" { caption := some (some "hi") } (by decide)

/-- C8: an import archive with a missing manifest or a manifest version
other than 1.0.0 is rejected with an error before any write: existing
settings and photo records are unchanged. -/
theorem importData_rejects_bad_manifest (parseDate : String → Int)
    (b64decode : String → List Nat) (st : AppState) (ar : Archive)
    (h : ar.manifest = none ∨
         ∃ m, ar.manifest = some m ∧ m.version ≠ "1.0.0") :
    ∃ e, importData parseDate b64decode st ar = (Except.error e, st) := by
  unfold importData
  rcases h with hn | ⟨m, hm, hv⟩
  · rw [hn]
    exact ⟨"Invalid export file: missing manifest", rfl⟩
  · simp only [hm]
    refine ⟨"Unsupported export version: " ++ m.version, ?_⟩
    rw [if_pos hv]

/-- C8 witness: a concrete archive with version 0.9.0 against a concrete
nonempty state. -/
theorem importData_rejects_bad_manifest_witness :
    ∃ e, importData (fun _ => 0) (fun _ => [])
        { store := { photos := [("a", { id := "a", data := [7], createdAt := 1 })],
                     order := ["a"] },
          settings := { theme := Theme.dark,
                        countdown := { targetDate := "t", timezone := "z" } } }
        { manifest := some { version := "0.9.0", exportedAt := "e" },
          settingsFile := none, photoFiles := [] } =
      (Except.error e,
        { store := { photos := [("a", { id := "a", data := [7], createdAt := 1 })],
                     order := ["a"] },
          settings := { theme := Theme.dark,
                        countdown := { targetDate := "t", timezone := "z" } } }) :=
  importData_rejects_bad_manifest (fun _ => 0) (fun _ => []) _ _
    (Or.inr ⟨{ version := "0.9.0", exportedAt := "e" }, rfl, by decide⟩)

/-- A photo with no caption and no takenAt, exercising the optional-field
handling of the upload document builder. -/
def photoNoOpt : Photo := { id := "n", data := [3], createdAt := 3 }

/-- A remote environment in which uploading `photoNoOpt` succeeds. -/
def envUpOk : RemoteEnv :=
  { docs := []
    uploadOutcome := fun p => if p.id == "n" then some ("cid9", "url9") else none
    now := 77 }

/-- C5 counterexample: for a photo whose optional `caption` is absent,
the uploaded Firestore document still contains a `caption` key, holding
the empty-marker value, refuting that absent optional fields produce no
key. -/
theorem upload_caption_empty_marker_cex :
    photoNoOpt.caption = none ∧
    uploadPhoto envUpOk photoNoOpt =
      Except.ok
        ({ photoNoOpt with cloudId := some "cid9", cloudUrl := some "url9",
                           lastSynced := some 77 },
         buildFirestoreDoc photoNoOpt "cid9" "url9" 77) ∧
    (buildFirestoreDoc photoNoOpt "cid9" "url9" 77).caption = some "" := by
  refine ⟨rfl, ?_, rfl⟩
  rfl

/-- C5 amended: in the uploaded document, `takenAt` is the only optional
field whose key is omitted when absent; `caption` is always written, with
the empty string standing in when the photo has none. -/
theorem upload_doc_optional_fields (env : RemoteEnv) (p cp : Photo)
    (doc : CloudRecord) (h : uploadPhoto env p = Except.ok (cp, doc)) :
    doc.takenAt = p.takenAt ∧ doc.caption = some (p.caption.getD "") := by
  unfold uploadPhoto at h
  cases ho : env.uploadOutcome p with
  | none => rw [ho] at h; cases h
  | some pr =>
    rw [ho] at h
    cases h
    exact ⟨rfl, rfl⟩

/-- C5 amended witness: the concrete upload of `photoNoOpt`. -/
theorem upload_doc_optional_fields_witness :
    (buildFirestoreDoc photoNoOpt "cid9" "url9" 77).takenAt =
        photoNoOpt.takenAt ∧
    (buildFirestoreDoc photoNoOpt "cid9" "url9" 77).caption =
        some (photoNoOpt.caption.getD "") :=
  upload_doc_optional_fields envUpOk photoNoOpt
    { photoNoOpt with cloudId := some "cid9", cloudUrl := some "url9",
                      lastSynced := some 77 }
    (buildFirestoreDoc photoNoOpt "cid9" "url9" 77) rfl

theorem uploadPhoto_ok_outcome {env : RemoteEnv} {p : Photo}
    {x : Photo × CloudRecord} (h : uploadPhoto env p = Except.ok x) :
    env.uploadOutcome p ≠ none := by
  intro hnone
  unfold uploadPhoto at h
  rw [hnone] at h
  cases h

theorem uploadPhoto_ok_id {env : RemoteEnv} {p : Photo}
    {cp : Photo} {doc : CloudRecord}
    (h : uploadPhoto env p = Except.ok (cp, doc)) : cp.id = p.id := by
  unfold uploadPhoto at h
  cases ho : env.uploadOutcome p with
  | none => rw [ho] at h; cases h
  | some pr =>
    rw [ho] at h
    cases h
    rfl

theorem uploadLoop_ok_all {env : RemoteEnv}
    {ce : List (String × CloudRecord)} {lp : List Photo} {ups : List Photo}
    (h : uploadLoop env ce lp = Except.ok ups) :
    ∀ p ∈ lp, jsMapHas ce p.id = false → env.uploadOutcome p ≠ none := by
  induction lp generalizing ups with
  | nil => intro p hp; cases hp
  | cons q rest ih =>
    intro p hp hhas
    rw [uploadLoop] at h
    by_cases hq : jsMapHas ce q.id = true
    · rw [if_pos hq] at h
      rcases List.mem_cons.mp hp with hpq | hpr
      · rw [hpq] at hhas
        rw [hhas] at hq
        cases hq
      · exact ih h p hpr hhas
    · rw [if_neg hq] at h
      cases hu : uploadPhoto env q with
      | error e => rw [hu] at h; cases h
      | ok x =>
        rw [hu] at h
        cases hrest : uploadLoop env ce rest with
        | error e => rw [hrest] at h; cases h
        | ok ups2 =>
          rw [hrest] at h
          rcases List.mem_cons.mp hp with hpq | hpr
          · rw [hpq]
            exact uploadPhoto_ok_outcome hu
          · exact ih hrest p hpr hhas

theorem uploadLoop_ok_map_id {env : RemoteEnv}
    {ce : List (String × CloudRecord)} {lp : List Photo} {ups : List Photo}
    (h : uploadLoop env ce lp = Except.ok ups) :
    ups.map (fun p => p.id) =
      (lp.filter (fun p => !(jsMapHas ce p.id))).map (fun p => p.id) := by
  induction lp generalizing ups with
  | nil =>
    rw [uploadLoop] at h
    cases h
    rfl
  | cons q rest ih =>
    rw [uploadLoop] at h
    by_cases hq : jsMapHas ce q.id = true
    · rw [if_pos hq] at h
      rw [List.filter_cons_of_neg (by simp [hq])]
      exact ih h
    · rw [if_neg hq] at h
      cases hu : uploadPhoto env q with
      | error e => rw [hu] at h; cases h
      | ok x =>
        rw [hu] at h
        cases hrest : uploadLoop env ce rest with
        | error e => rw [hrest] at h; cases h
        | ok ups2 =>
          rw [hrest] at h
          cases h
          have hqf : jsMapHas ce q.id = false := by
            cases hb : jsMapHas ce q.id with
            | true => exact absurd hb hq
            | false => rfl
          rw [List.filter_cons_of_pos (by simp [hqf])]
          rw [List.map_cons, List.map_cons, ih hrest]
          cases x with
          | mk cp doc =>
            rw [uploadPhoto_ok_id hu]

theorem uploadLoop_exists_ok {env : RemoteEnv}
    {ce : List (String × CloudRecord)} {lp : List Photo}
    (hall : ∀ p ∈ lp, jsMapHas ce p.id = false → env.uploadOutcome p ≠ none) :
    ∃ ups, uploadLoop env ce lp = Except.ok ups := by
  induction lp with
  | nil => exact ⟨[], rfl⟩
  | cons q rest ih =>
    rcases ih (fun p hp => hall p (List.mem_cons_of_mem _ hp)) with ⟨ups, hups⟩
    rw [uploadLoop]
    by_cases hq : jsMapHas ce q.id = true
    · rw [if_pos hq]
      exact ⟨ups, hups⟩
    · rw [if_neg hq]
      have hqf : jsMapHas ce q.id = false := by
        cases hb : jsMapHas ce q.id with
        | true => exact absurd hb hq
        | false => rfl
      have hne := hall q (List.mem_cons_self _ _) hqf
      cases ho : env.uploadOutcome q with
      | none => exact absurd ho hne
      | some pr =>
        have hup : uploadPhoto env q =
            Except.ok
              ({ q with cloudId := some pr.1, cloudUrl := some pr.2,
                        lastSynced := some env.now },
               buildFirestoreDoc q pr.1 pr.2 env.now) := by
          unfold uploadPhoto
          rw [ho]
        rw [hup, hups]
        exact ⟨_, rfl⟩

theorem downloadLoop_eq_filterMap (env : RemoteEnv)
    (le : List (String × Photo)) (l : List CloudRecord) :
    downloadLoop env le l = l.filterMap (fun c =>
      if jsMapHas le c.id then none
      else (downloadPhoto env c.cloudId).toOption) := by
  induction l with
  | nil => rfl
  | cons c rest ih =>
    rw [downloadLoop, List.filterMap_cons]
    by_cases hc : jsMapHas le c.id = true
    · rw [if_pos hc]
      rw [if_pos hc]
      exact ih
    · rw [if_neg hc]
      rw [if_neg hc]
      cases hd : downloadPhoto env c.cloudId with
      | error e =>
        exact ih
      | ok p =>
        exact congrArg (fun l => p :: l) ih

/-- C2 amended: a failure in the full-remote-list fetch or in any single
upload aborts the pass and propagates; a failure inside
`cleanupInvalidPhotos` is caught there (it returns 0 cleaned) and the
pass continues to the reconciliation. -/
theorem sync_abort_propagation :
    (∀ env s, env.listOk = false →
      syncWithCloud env s = Except.error "network failure listing photos") ∧
    (∀ env lp p, p ∈ lp → env.listOk = true →
      jsMapHas ((remoteListing env.docs).map (fun c => (c.id, c))) p.id = false →
      env.uploadOutcome p = none →
      ∃ e, syncPhotos env lp = Except.error e) ∧
    (∀ env s, env.cleanupListOk = false →
      syncWithCloud env s =
        Except.map
          (fun res =>
            (res, 0,
              materializeDownloads (recordUploadUpdates s res.uploaded)
                res.downloaded))
          (syncPhotos env (getAllPhotos s))) := by
  refine ⟨?_, ?_, ?_⟩
  · intro env s hl
    unfold syncWithCloud syncPhotos getAllCloudPhotos
    simp only [hl]
    rfl
  · intro env lp p hp hl hhas hout
    unfold syncPhotos getAllCloudPhotos
    rw [if_pos hl]
    dsimp only
    cases hup : uploadLoop env
        ((remoteListing env.docs).map (fun c => (c.id, c))) lp with
    | error e =>
      exact ⟨e, rfl⟩
    | ok ups =>
      exact absurd hout (uploadLoop_ok_all hup p hp hhas)
  · intro env s hc
    unfold syncWithCloud cleanupInvalidPhotos
    rw [if_neg (by rw [hc]; exact Bool.false_ne_true)]
    dsimp only
    have key : syncPhotos { env with docs := env.docs } (getAllPhotos s) =
        syncPhotos env (getAllPhotos s) := rfl
    rw [key]
    cases hres : syncPhotos env (getAllPhotos s) with
    | error e => rfl
    | ok res => rfl

/-- A remote environment whose cleanup-phase listing call fails while
everything else succeeds. -/
def envCleanupFail : RemoteEnv := { docs := [], cleanupListOk := false }

/-- C2 counterexample: with the cleanup listing failing, the pass still
returns successfully (zero cleaned), so a failure inside
`cleanupInvalidPhotos` does not abort the pass. -/
theorem sync_cleanup_failure_not_abort_cex :
    envCleanupFail.cleanupListOk = false ∧
    syncWithCloud envCleanupFail emptyStore =
      Except.ok ({ uploaded := [], downloaded := [], conflicts := [] }, 0,
        emptyStore) :=
  ⟨rfl, rfl⟩

/-- A remote environment whose full-list fetch fails. -/
def envListFail : RemoteEnv := { docs := [], listOk := false }

/-- A photo and an environment in which its upload fails. -/
def photoW : Photo := { id := "w", data := [], createdAt := 0 }

/-- A remote environment in which every upload fails. -/
def envUploadFail : RemoteEnv := { docs := [] }

/-- C2 amended witness: the three propagation behaviours at concrete
inputs. -/
theorem sync_abort_propagation_witness :
    syncWithCloud envListFail emptyStore =
      Except.error "network failure listing photos" ∧
    (∃ e, syncPhotos envUploadFail [photoW] = Except.error e) ∧
    syncWithCloud envCleanupFail emptyStore =
      Except.map
        (fun res =>
          (res, 0,
            materializeDownloads (recordUploadUpdates emptyStore res.uploaded)
              res.downloaded))
        (syncPhotos envCleanupFail (getAllPhotos emptyStore)) :=
  ⟨sync_abort_propagation.1 envListFail emptyStore rfl,
   sync_abort_propagation.2.1 envUploadFail [photoW] photoW
     (List.mem_cons_self _ _) rfl rfl rfl,
   sync_abort_propagation.2.2 envCleanupFail emptyStore rfl⟩

/-- C3: when the remote listing succeeds and every needed upload
succeeds, the pass returns normally and its download list is exactly the
successful downloads among the remote records absent locally — a
per-item download failure is skipped and the rest proceed. -/
theorem sync_download_skips_failures (env : RemoteEnv) (lp : List Photo)
    (hl : env.listOk = true)
    (hu : ∀ p ∈ lp,
      jsMapHas ((remoteListing env.docs).map (fun c => (c.id, c))) p.id = false →
      env.uploadOutcome p ≠ none) :
    ∃ res, syncPhotos env lp = Except.ok res ∧
      res.downloaded = (remoteListing env.docs).filterMap (fun c =>
        if jsMapHas (lp.map (fun p => (p.id, p))) c.id then none
        else (downloadPhoto env c.cloudId).toOption) := by
  unfold syncPhotos getAllCloudPhotos
  rw [if_pos hl]
  dsimp only
  rcases uploadLoop_exists_ok hu with ⟨ups, hups⟩
  rw [hups]
  exact ⟨_, rfl, downloadLoop_eq_filterMap env _ _⟩

/-- Remote environment for the C3 witness: two remote-only records, one
whose blob fetch succeeds and one whose blob fetch fails. -/
def envDl : RemoteEnv :=
  { docs :=
      [("g", { id := "G", cloudId := "g", cloudUrl := "ug", createdAt := 9 }),
       ("b", { id := "H", cloudId := "b", cloudUrl := "ub", createdAt := 4 })]
    blobFetch := fun cid => if cid == "g" then some [5] else none }

/-- C3 witness: the pass over `envDl` with no local photos succeeds and
downloads exactly the record whose fetch works. -/
theorem sync_download_skips_failures_witness :
    ∃ res, syncPhotos envDl [] = Except.ok res ∧
      res.downloaded = (remoteListing envDl.docs).filterMap (fun c =>
        if jsMapHas (([] : List Photo).map (fun p => (p.id, p))) c.id then none
        else (downloadPhoto envDl c.cloudId).toOption) :=
  sync_download_skips_failures envDl [] rfl (by intro p hp; cases hp)

theorem downloadPhoto_id {env : RemoteEnv} {c : CloudRecord} {q : Photo}
    (hwf : DocsWf env.docs) (hc : c ∈ remoteListing env.docs)
    (h : downloadPhoto env c.cloudId = Except.ok q) : q.id = c.id := by
  have hc2 : c ∈ List.insertionSort createdDesc
      (env.docs.map (fun e => e.2)) := hc
  have hmem : c ∈ env.docs.map (fun e => e.2) :=
    (List.perm_insertionSort createdDesc (env.docs.map (fun e => e.2))).mem_iff.mp
      hc2
  rcases List.mem_map.mp hmem with ⟨e, he, hec⟩
  have hkey : c.cloudId = e.1 := by rw [← hec]; exact hwf.2 e he
  have hfind : env.docs.find? (fun x => x.1 == e.1) = some e :=
    find_key_of_mem_nodup hwf.1 he
  unfold downloadPhoto at h
  rw [hkey, hfind] at h
  simp only [Option.map_some'] at h
  cases hb : env.blobFetch e.1 with
  | none => rw [hb] at h; cases h
  | some bytes =>
    rw [hb] at h
    cases h
    rw [← hec]

theorem downloadLoop_ids_aux (env : RemoteEnv) (le : List (String × Photo))
    (hwf : DocsWf env.docs) :
    ∀ l : List CloudRecord, (∀ c ∈ l, c ∈ remoteListing env.docs) →
      (∀ c ∈ l, jsMapHas le c.id = false →
        (downloadPhoto env c.cloudId).toOption ≠ none) →
      (downloadLoop env le l).map (fun p => p.id) =
        (l.filter (fun c => !(jsMapHas le c.id))).map (fun c => c.id) := by
  intro l
  induction l with
  | nil => intro _ _; rfl
  | cons c rest ih =>
    intro hmem hsucc
    rw [downloadLoop]
    by_cases hc : jsMapHas le c.id = true
    · rw [if_pos hc, List.filter_cons_of_neg (by simp [hc])]
      exact ih (fun d hd => hmem d (List.mem_cons_of_mem _ hd))
        (fun d hd => hsucc d (List.mem_cons_of_mem _ hd))
    · rw [if_neg hc]
      have hcf : jsMapHas le c.id = false := by
        cases hb : jsMapHas le c.id with
        | true => exact absurd hb hc
        | false => rfl
      have hne := hsucc c (List.mem_cons_self _ _) hcf
      cases hd : downloadPhoto env c.cloudId with
      | error e =>
        exact absurd (by rw [hd]; rfl) hne
      | ok q =>
        rw [List.filter_cons_of_pos (by simp [hcf]), List.map_cons,
          List.map_cons]
        rw [ih (fun d hd2 => hmem d (List.mem_cons_of_mem _ hd2))
          (fun d hd2 => hsucc d (List.mem_cons_of_mem _ hd2))]
        rw [downloadPhoto_id hwf (hmem c (List.mem_cons_self _ _)) hd]

/-- The C1 scenario: local photo A (never uploaded). -/
def pA : Photo := { id := "A", data := [1], createdAt := 10 }

/-- The C1 scenario: local photo B, already linked to cloud record X. -/
def pB : Photo := { id := "B", data := [2], createdAt := 20, order := 1, cloudId := some "X", cloudUrl := some "uB", lastSynced := some 20 }

/-- The C1 scenario: remote record X, whose embedded local id is B. -/
def recX : CloudRecord := { id := "B", cloudId := "X", cloudUrl := "uX", createdAt := 20, caption := some "", order := 1, lastSynced := 20 }

/-- The C1 scenario: remote record Y, whose embedded local id is C and
which exists only remotely. -/
def recY : CloudRecord := { id := "C", cloudId := "Y", cloudUrl := "uY", createdAt := 5, caption := some "", order := 2, lastSynced := 5 }

/-- The C1 scenario remote environment: records X and Y, upload of A
succeeding with fresh cloud id cloudA, blob fetch of Y succeeding. -/
def envC1 : RemoteEnv := { docs := [("X", recX), ("Y", recY)], uploadOutcome := fun p => if p.id == "A" then some ("cloudA", "urlA") else none, blobFetch := fun cid => if cid == "Y" then some [9] else none, now := 100 }

/-- The C1 scenario local store holding A and B. -/
def storeC1 : LocalStore := { photos := [("A", pA), ("B", pB)], order := ["A", "B"] }

/-- The sync result of the C1 scenario: A uploaded with its new cloud
linkage, Y downloaded as local photo C, no conflicts. -/
def resC1 : SyncResult :=
  { uploaded := [{ pA with cloudId := some "cloudA", cloudUrl := some "urlA", lastSynced := some 100 }]
    downloaded := [{ id := "C", data := [9], createdAt := 5, caption := some "", order := 2 }]
    conflicts := [] }

theorem docsWfC1 : DocsWf envC1.docs := by
  unfold DocsWf
  exact ⟨by decide, by decide⟩

/-- C1: in general the upload set of a sync pass is exactly the local
photos whose id is absent from the remote index and (when each needed
download succeeds) the download set is exactly the remote records whose
embedded local id is absent from the local index; in the concrete
scenario with local A, B and remote X, Y, the pass uploads exactly A
(which gains the new cloud id), downloads exactly Y (materialized locally
under id C) and reports zero conflicts. -/
theorem sync_pass_reconciles :
    (∀ env lp res, DocsWf env.docs → syncPhotos env lp = Except.ok res →
      res.uploaded.map (fun p => p.id) =
        (lp.filter (fun p =>
          !(jsMapHas ((remoteListing env.docs).map (fun c => (c.id, c)))
            p.id))).map (fun p => p.id) ∧
      ((∀ c ∈ remoteListing env.docs,
          jsMapHas (lp.map (fun p => (p.id, p))) c.id = false →
          (downloadPhoto env c.cloudId).toOption ≠ none) →
        res.downloaded.map (fun p => p.id) =
          ((remoteListing env.docs).filter (fun c =>
            !(jsMapHas (lp.map (fun p => (p.id, p))) c.id))).map
            (fun c => c.id))) ∧
    ((syncWithCloud envC1 storeC1).toOption.map (fun out =>
        (out.1.uploaded.map (fun p => (p.id, p.cloudId)),
         out.1.downloaded.map (fun p => p.id),
         out.1.conflicts,
         (getPhoto out.2.2 "A").map (fun q => q.cloudId),
         (getPhoto out.2.2 "C").map (fun q => q.id))) =
      some ([("A", some "cloudA")], ["C"], [], some (some "cloudA"),
        some "C")) := by
  constructor
  · intro env lp res hwf h
    unfold syncPhotos getAllCloudPhotos at h
    by_cases hl : env.listOk = true
    · rw [if_pos hl] at h
      dsimp only at h
      cases hup : uploadLoop env
          ((remoteListing env.docs).map (fun c => (c.id, c))) lp with
      | error e => rw [hup] at h; cases h
      | ok ups =>
        rw [hup] at h
        cases h
        constructor
        · exact uploadLoop_ok_map_id hup
        · intro hsucc
          exact downloadLoop_ids_aux env (lp.map (fun p => (p.id, p))) hwf
            (remoteListing env.docs) (fun c hc => hc) hsucc
    · rw [if_neg hl] at h
      cases h
  · rfl

/-- C1 witness: the general characterization applied to the concrete
scenario pass. -/
theorem sync_pass_reconciles_witness :
    resC1.uploaded.map (fun p => p.id) =
      ((getAllPhotos storeC1).filter (fun p =>
        !(jsMapHas ((remoteListing envC1.docs).map (fun c => (c.id, c)))
          p.id))).map (fun p => p.id) ∧
    resC1.downloaded.map (fun p => p.id) =
      ((remoteListing envC1.docs).filter (fun c =>
        !(jsMapHas ((getAllPhotos storeC1).map (fun p => (p.id, p)))
          c.id))).map (fun c => c.id) :=
  ⟨(sync_pass_reconciles.1 envC1 (getAllPhotos storeC1) resC1 docsWfC1
      rfl).1,
   (sync_pass_reconciles.1 envC1 (getAllPhotos storeC1) resC1 docsWfC1
      rfl).2 (by decide)⟩

theorem getAllPhotos_ids_nodup {s : LocalStore} (h : StoreWf s) :
    ((getAllPhotos s).map (fun p => p.id)).Nodup := by
  obtain ⟨hkeys, hid, _⟩ := h
  unfold getAllPhotos
  rw [List.map_map]
  have heq : s.photos.map ((fun p => p.id) ∘ (fun e => e.2)) =
      s.photos.map (fun e => e.1) :=
    List.map_congr_left (fun e he => hid e he)
  rw [heq]
  exact hkeys

theorem getPhotosInOrder_perm {s : LocalStore} (h : StoreWf s) :
    (getPhotosInOrder s).Perm (getAllPhotos s) := by
  obtain ⟨hkeys, hid, hord⟩ := h
  have hids : ((getAllPhotos s).map (fun p => p.id)).Nodup :=
    getAllPhotos_ids_nodup ⟨hkeys, hid, hord⟩
  have hpnd : (getAllPhotos s).Nodup := hids.of_map _
  have hmapkeys :
      ((getAllPhotos s).map (fun p => (p.id, p))).map (fun e => e.1) =
        (getAllPhotos s).map (fun p => p.id) := by
    rw [List.map_map]
    exact List.map_congr_left (fun p _ => rfl)
  have hentry : ∀ {k : String} {v : Photo},
      jsMapGet ((getAllPhotos s).map (fun p => (p.id, p))) k = some v →
      v.id = k ∧ v ∈ getAllPhotos s := by
    intro k v hkv
    rcases List.mem_map.mp (jsMapGet_mem hkv) with ⟨p, hp, hpe⟩
    have h1 : p.id = k := congrArg Prod.fst hpe
    have h2 : p = v := congrArg Prod.snd hpe
    rw [← h2]
    exact ⟨h1, hp⟩
  have hget : ∀ {p : Photo}, p ∈ getAllPhotos s →
      jsMapGet ((getAllPhotos s).map (fun p => (p.id, p))) p.id = some p := by
    intro p hp
    apply jsMapGet_of_mem_nodup
    · rw [hmapkeys]; exact hids
    · exact List.mem_map.mpr ⟨p, hp, rfl⟩
  have hond : (s.order.filterMap (fun id =>
      jsMapGet ((getAllPhotos s).map (fun p => (p.id, p))) id)).Nodup := by
    apply hord.filterMap
    intro a a' b hb hb'
    have e1 := (hentry (Option.mem_def.mp hb)).1
    have e2 := (hentry (Option.mem_def.mp hb')).1
    rw [← e1, e2]
  have hund : ((getAllPhotos s).filter
      (fun p => !(s.order.contains p.id))).Nodup := hpnd.filter _
  have hdisj : (s.order.filterMap (fun id =>
      jsMapGet ((getAllPhotos s).map (fun p => (p.id, p))) id)).Disjoint
      ((getAllPhotos s).filter (fun p => !(s.order.contains p.id))) := by
    intro a ha1 ha2
    rcases List.mem_filterMap.mp ha1 with ⟨i, hi, hgi⟩
    have hai : a.id = i := (hentry hgi).1
    have hmem : a.id ∈ s.order := by rw [hai]; exact hi
    have hnot := (List.mem_filter.mp ha2).2
    have hfalse : s.order.contains a.id = false := by
      cases hb : s.order.contains a.id with
      | true => rw [hb] at hnot; simp at hnot
      | false => rfl
    have htrue : s.order.contains a.id = true := List.elem_iff.mpr hmem
    rw [htrue] at hfalse
    cases hfalse
  have happ : ((s.order.filterMap (fun id =>
      jsMapGet ((getAllPhotos s).map (fun p => (p.id, p))) id)) ++
      ((getAllPhotos s).filter (fun p => !(s.order.contains p.id)))).Nodup :=
    hond.append hund hdisj
  have hfin : ((s.order.filterMap (fun id =>
      jsMapGet ((getAllPhotos s).map (fun p => (p.id, p))) id)) ++
      ((getAllPhotos s).filter (fun p => !(s.order.contains p.id)))).toFinset =
      (getAllPhotos s).toFinset := by
    apply Finset.ext
    intro a
    rw [List.mem_toFinset, List.mem_toFinset, List.mem_append]
    constructor
    · intro hx
      rcases hx with hx | hx
      · rcases List.mem_filterMap.mp hx with ⟨i, _, hgi⟩
        exact (hentry hgi).2
      · exact (List.mem_filter.mp hx).1
    · intro ha
      by_cases hmem : a.id ∈ s.order
      · exact Or.inl (List.mem_filterMap.mpr ⟨a.id, hmem, hget ha⟩)
      · refine Or.inr (List.mem_filter.mpr ⟨ha, ?_⟩)
        cases hb : s.order.contains a.id with
        | true => exact absurd (List.elem_iff.mp hb) hmem
        | false => rfl
  exact List.perm_of_nodup_nodup_toFinset_eq happ hpnd hfin

theorem setKey_fresh {l : List (String × Photo)} {k : String} {v : Photo}
    (h : ∀ e ∈ l, e.1 ≠ k) : setKey l k v = l ++ [(k, v)] := by
  unfold setKey
  rw [if_neg]
  intro hany
  rcases List.any_eq_true.mp hany with ⟨e, he, heq⟩
  exact h e he (by simpa using heq)

theorem storeWf_empty : StoreWf emptyStore :=
  ⟨List.nodup_nil, fun e he => absurd he (List.not_mem_nil e), List.nodup_nil⟩

theorem applyOp_wf {s : LocalStore} {op : StoreOp} (h : StoreWf s)
    (hop : OpWf s op) : StoreWf (applyOp s op) := by
  obtain ⟨hkeys, hid, hord⟩ := h
  cases op with
  | save fresh photo =>
    obtain ⟨hfresh, hfo⟩ := hop
    unfold applyOp savePhoto
    dsimp only
    rw [setKey_fresh hfresh]
    refine ⟨?_, ?_, ?_⟩
    · rw [List.map_append, List.nodup_append]
      refine ⟨hkeys, List.nodup_singleton _, ?_⟩
      intro a ha hb
      rcases List.mem_map.mp ha with ⟨e, he, hea⟩
      have hb2 : a = fresh := by simpa using hb
      exact hfresh e he (hea.trans hb2)
    · intro e he
      rcases List.mem_append.mp he with h1 | h2
      · exact hid e h1
      · have : e = (fresh, { photo with id := fresh }) := by simpa using h2
        rw [this]
    · rw [List.nodup_append]
      refine ⟨hord, List.nodup_singleton _, ?_⟩
      intro a ha hb
      have hb2 : a = fresh := by simpa using hb
      rw [hb2] at ha
      exact hfo ha
  | del id ok =>
    show StoreWf (deletePhoto ok s id)
    unfold deletePhoto
    cases hg : getPhoto s id with
    | none => exact ⟨hkeys, hid, hord⟩
    | some p =>
      refine ⟨?_, ?_, ?_⟩
      · exact hkeys.sublist ((List.filter_sublist s.photos).map (fun e => e.1))
      · intro e he
        exact hid e (List.mem_of_mem_filter he)
      · exact hord.sublist (List.filter_sublist s.order)
  | reorder ids =>
    exact ⟨hkeys, hid, hop⟩

theorem applyOps_wf {s : LocalStore} {ops : List StoreOp} (h : StoreWf s)
    (hops : OpsWf s ops) : StoreWf (applyOps s ops) := by
  induction ops generalizing s with
  | nil => exact h
  | cons op rest ih =>
    exact ih (applyOp_wf h hops.1) hops.2

/-- C4 amended: after any finite sequence of save, delete and reorder
operations in which every save uses a fresh generated id and every
reorder argument is free of duplicate ids, getPhotosInOrder is a
permutation of getAllPhotos — no photo duplicated or dropped. -/
theorem getInOrder_perm_of_wf_ops (ops : List StoreOp)
    (h : OpsWf emptyStore ops) :
    (getPhotosInOrder (applyOps emptyStore ops)).Perm
      (getAllPhotos (applyOps emptyStore ops)) :=
  getPhotosInOrder_perm (applyOps_wf storeWf_empty h)

/-- A concrete photo for the C4 scenarios. -/
def photoZ : Photo := { id := "z", data := [], createdAt := 0 }

/-- C4 counterexample: the reorder operation performs no validation, so
reordering to a duplicated id list makes getPhotosInOrder repeat a stored
photo and it is no longer a permutation of getAllPhotos. -/
theorem getInOrder_perm_cex :
    ¬ (getPhotosInOrder (applyOps emptyStore
        [StoreOp.save "a" photoZ, StoreOp.reorder ["a", "a"]])).Perm
      (getAllPhotos (applyOps emptyStore
        [StoreOp.save "a" photoZ, StoreOp.reorder ["a", "a"]])) := by
  decide

/-- C4 amended witness: a concrete well-formed save/delete/reorder
sequence. -/
theorem getInOrder_perm_of_wf_ops_witness :
    (getPhotosInOrder (applyOps emptyStore
        [StoreOp.save "a" photoZ, StoreOp.save "b" photoZ,
         StoreOp.del "a" true, StoreOp.reorder ["b"]])).Perm
      (getAllPhotos (applyOps emptyStore
        [StoreOp.save "a" photoZ, StoreOp.save "b" photoZ,
         StoreOp.del "a" true, StoreOp.reorder ["b"]])) :=
  getInOrder_perm_of_wf_ops
    [StoreOp.save "a" photoZ, StoreOp.save "b" photoZ,
     StoreOp.del "a" true, StoreOp.reorder ["b"]]
    ⟨⟨by decide, by decide⟩,
     ⟨by decide, by decide⟩,
     trivial,
     List.nodup_singleton _, trivial⟩

/-- A concrete well-formed two-photo state for the C9 round-trip
scenario. -/
def stRT : AppState :=
  { store :=
      { photos :=
          [("a", { id := "a", data := [1, 2], createdAt := 5,
                   caption := some "hello", isFavorite := true, order := 0 }),
           ("b", { id := "b", data := [3], createdAt := 6, order := 1 })]
        order := ["a", "b"] }
    settings := { theme := Theme.dark
                  countdown := { targetDate := "t", timezone := "z" } } }

/-- C9: at the concrete two-photo state, exporting and importing into an
empty local store completes and reproduces the settings, but imports ZERO
photos — every iteration of the photo loop looks up a doubled path
(`photos/manifest.json`, `photos/settings.json`, `photos/photos/<id>.json`)
and finds nothing — so the photo set is not reproduced and the round-trip
claim fails on the code. -/
theorem export_import_drops_photos :
    (importData (fun _ => 0) (fun _ => [])
        { store := emptyStore,
          settings := { theme := Theme.system,
                        countdown := { targetDate := "d", timezone := "w" } } }
        (exportData (fun _ => "iso") (fun _ => "b64") stRT "now")).1 =
      Except.ok () ∧
    (importData (fun _ => 0) (fun _ => [])
        { store := emptyStore,
          settings := { theme := Theme.system,
                        countdown := { targetDate := "d", timezone := "w" } } }
        (exportData (fun _ => "iso") (fun _ => "b64") stRT "now")).2.settings =
      stRT.settings ∧
    getAllPhotos (importData (fun _ => 0) (fun _ => [])
        { store := emptyStore,
          settings := { theme := Theme.system,
                        countdown := { targetDate := "d", timezone := "w" } } }
        (exportData (fun _ => "iso") (fun _ => "b64") stRT "now")).2.store =
      [] ∧
    (getAllPhotos (importData (fun _ => 0) (fun _ => [])
        { store := emptyStore,
          settings := { theme := Theme.system,
                        countdown := { targetDate := "d", timezone := "w" } } }
        (exportData (fun _ => "iso") (fun _ => "b64") stRT "now")).2.store).map
      (fun p => (p.id, p.caption, p.isFavorite, p.order)) ≠
    (getAllPhotos stRT.store).map
      (fun p => (p.id, p.caption, p.isFavorite, p.order)) := by
  refine ⟨rfl, by decide, by decide, by decide⟩
